import Mathlib

/-!
# fontstash.c : the implementation gate of `01_tappy_birb.sokol`

`src/c/sokol_patch/fontstash.c` is a 25-line translation unit made only of
preprocessor directives.  The development below embeds

* the file itself, line by line, as a value `fontstash_c : List Line`;
* the part of the C preprocessor the file uses (`#if defined(..) || ..`,
  `#endif`, `#define`, `#include`, `#pragma`) as a small-step interpreter
  `step` / `run` over a state holding the macros defined so far, the stack
  of enclosing conditionals and the directives emitted so far;
* the effect of the emitted warning pragmas on a compiler's diagnostic
  state (`applyPragma` / `warnRun`).

A build configuration is the list of macros predefined when the file is
compiled (`-DIMPL`, `_MSC_VER`, `__GNUC__`, `__clang__`, ...); every list is
allowed, so every combination of the four macros the file tests is covered.

The seven headers are not part of the file and are not expanded: an
`#include` is emitted as one directive, and the macros and the warning state
change only through the directives of `fontstash.c` itself.
-/

namespace Fontstash

/-! ## Syntax of the file -/

/-- Controlling expression of an `#if`: `defined(M)` and `||`. -/
inductive Cond where
  | defined : String → Cond
  | or : Cond → Cond → Cond
  deriving DecidableEq

/-- The pragmas that occur in the file. -/
inductive Pragma where
  /-- MSVC: `#pragma warning(disable:N)`. -/
  | warningDisable : Nat → Pragma
  /-- GCC and clang: `#pragma GCC diagnostic push`. -/
  | gccDiagnosticPush : Pragma
  /-- GCC and clang: `#pragma GCC diagnostic ignored "-W..."`. -/
  | gccDiagnosticIgnored : String → Pragma
  /-- GCC and clang: `#pragma GCC diagnostic pop`. -/
  | gccDiagnosticPop : Pragma
  deriving DecidableEq

/-- One source line of the file. -/
inductive Line where
  | ifCond : Cond → Line
  | endif : Line
  | define : String → Line
  | incl : String → Line
  | pragma : Pragma → Line
  /-- An empty line or a line holding only a comment. -/
  | blank : Line
  deriving DecidableEq

/-- A directive that survives conditional compilation. -/
inductive Directive where
  | define : String → Directive
  | incl : String → Directive
  | pragma : Pragma → Directive
  deriving DecidableEq

/-- The 25 lines of `fontstash.c`, in order (entry `i` is line `i + 1`).
Both forms of include, `"h"` and `<h>`, are recorded by the header name;
trailing comments are dropped. -/
def fontstash_c : List Line :=
  [ .ifCond (.defined "IMPL"),                                   -- 1
    .define "FONTSTASH_IMPLEMENTATION",                          -- 2
    .define "SOKOL_FONTSTASH_IMPL",                              -- 3
    .endif,                                                      -- 4
    .incl "sokol_defines.h",                                  -- 5
    .incl "sokol_gfx.h",                                      -- 6
    .incl "sokol_gl.h",                                       -- 7
    .blank,                                                      -- 8
    .incl "stdio.h",                                          -- 9
    .incl "stdlib.h",                                         -- 10
    .ifCond (.defined "_MSC_VER"),                               -- 11
    .pragma (.warningDisable 4996),                              -- 12
    .endif,                                                      -- 13
    .ifCond (.or (.defined "__GNUC__") (.defined "__clang__")),  -- 14
    .pragma .gccDiagnosticPush,                                  -- 15
    .pragma (.gccDiagnosticIgnored "-Wunused-function"),         -- 16
    .pragma (.gccDiagnosticIgnored "-Wsign-conversion"),         -- 17
    .endif,                                                      -- 18
    .blank,                                                      -- 19 (a commented-out include)
    .incl "fontstash.h",                                      -- 20
    .ifCond (.or (.defined "__GNUC__") (.defined "__clang__")),  -- 21
    .pragma .gccDiagnosticPop,                                   -- 22
    .endif,                                                      -- 23
    .blank,                                                      -- 24
    .incl "sokol_fontstash.h" ]                               -- 25

/-! ## Conditional compilation -/

/-- Value of an `#if` expression under the macros defined so far. -/
def Cond.eval (macros : List String) : Cond → Bool
  | .defined m => macros.contains m
  | .or a b => a.eval macros || b.eval macros

/-- Preprocessor state: macros defined so far, the results of the enclosing
`#if`s (innermost first), and the directives emitted so far. -/
structure PP where
  macros : List String
  conds : List Bool
  out : List Directive
  deriving DecidableEq

/-- A line is live when every enclosing `#if` is true. -/
def PP.active (s : PP) : Bool := s.conds.all id

/-- Process one line. -/
def step (s : PP) : Line → PP
  | .ifCond c => { s with conds := c.eval s.macros :: s.conds }
  | .endif => { s with conds := s.conds.tail }
  | .define m =>
      if s.active then { s with macros := m :: s.macros, out := s.out ++ [.define m] } else s
  | .incl h =>
      if s.active then { s with out := s.out ++ [.incl h] } else s
  | .pragma p =>
      if s.active then { s with out := s.out ++ [.pragma p] } else s
  | .blank => s

/-- Process a sequence of lines starting from the predefined macros. -/
def run (lines : List Line) (predefined : List String) : PP :=
  lines.foldl step { macros := predefined, conds := [], out := [] }

/-- Directives emitted by the whole of `fontstash.c`. -/
def emitted (predefined : List String) : List Directive :=
  (run fontstash_c predefined).out

/-- Directives emitted by lines `1 .. n` of `fontstash.c`. -/
def emittedUpTo (n : Nat) (predefined : List String) : List Directive :=
  (run (fontstash_c.take n) predefined).out

/-- Macros defined once lines `1 .. n` of `fontstash.c` are processed. -/
def macrosUpTo (n : Nat) (predefined : List String) : List String :=
  (run (fontstash_c.take n) predefined).macros

/-- State of the preprocessor when it reaches the (first) line equal to `l`
of `fontstash.c`: the lines above it have been processed. -/
def reaching (l : Line) (predefined : List String) : PP :=
  run (fontstash_c.takeWhile (· ≠ l)) predefined

/-- The predefined macros of the build configuration in which, of the four
macros the file tests, exactly the flagged ones are defined. -/
def config (impl msc gnuc clang : Bool) : List String :=
  (if impl then ["IMPL"] else []) ++ (if msc then ["_MSC_VER"] else []) ++
  (if gnuc then ["__GNUC__"] else []) ++ (if clang then ["__clang__"] else [])

/-- Macro names an `#if` expression looks at. -/
def Cond.names : Cond → List String
  | .defined m => [m]
  | .or a b => a.names ++ b.names

/-- Macro names a line tests. -/
def Line.tested : Line → List String
  | .ifCond c => c.names
  | _ => []

/-- The macros tested somewhere in `fontstash.c`. -/
def testedMacros : List String := ["IMPL", "_MSC_VER", "__GNUC__", "__clang__"]

/-- Two preprocessor states that differ at most in macros outside `T`. -/
def Agree (T : List String) (s t : PP) : Prop :=
  s.conds = t.conds ∧ s.out = t.out ∧ ∀ x ∈ T, (x ∈ s.macros ↔ x ∈ t.macros)

/-! ## Reading the emitted directives -/

/-- Headers included, in order. -/
def includesOf : List Directive → List String
  | [] => []
  | .incl h :: ds => h :: includesOf ds
  | _ :: ds => includesOf ds

/-- Macros defined, in order. -/
def definesOf : List Directive → List String
  | [] => []
  | .define m :: ds => m :: definesOf ds
  | _ :: ds => definesOf ds

/-- Diagnostics named by `#pragma GCC diagnostic ignored`, in order. -/
def ignoredOf : List Directive → List String
  | [] => []
  | .pragma (.gccDiagnosticIgnored w) :: ds => w :: ignoredOf ds
  | _ :: ds => ignoredOf ds

/-- Recognises the `#pragma GCC diagnostic ...` directives. -/
def isGccPragma : Directive → Bool
  | .pragma .gccDiagnosticPush => true
  | .pragma (.gccDiagnosticIgnored _) => true
  | .pragma .gccDiagnosticPop => true
  | _ => false

/-- Some occurrence of `a` stands at an earlier position than some
occurrence of `b`. -/
def Precedes (a b : Directive) (out : List Directive) : Prop :=
  ∃ j, j < out.length ∧ ∃ i, i < j ∧ out[i]? = some a ∧ out[j]? = some b

instance (a b : Directive) (out : List Directive) : Decidable (Precedes a b out) := by
  unfold Precedes
  infer_instance

/-- Includes of a source text that stand inside an `#if` ... `#endif`
block, given the number `depth` of blocks already open. -/
def guardedIncludes (depth : Nat) : List Line → List String
  | [] => []
  | .ifCond _ :: ls => guardedIncludes (depth + 1) ls
  | .endif :: ls => guardedIncludes (depth - 1) ls
  | .incl h :: ls => if depth = 0 then guardedIncludes depth ls else h :: guardedIncludes depth ls
  | _ :: ls => guardedIncludes depth ls

/-! ## Warning state -/

/-- A warning a compiler can be told not to report. -/
inductive Warning where
  /-- MSVC warning number, as in `warning(disable:4996)`. -/
  | msvc : Nat → Warning
  /-- GCC or clang diagnostic flag, as in `"-Wunused-function"`. -/
  | gcc : String → Warning
  deriving DecidableEq

/-- Diagnostic state of the compiler: the warnings currently suppressed, the
states saved by `push` (innermost first), and the state given on the command
line. -/
structure WarnState where
  suppressed : List Warning
  saved : List (List Warning)
  cmdline : List Warning
  deriving DecidableEq

/-- The state of a compilation started with no warning suppressed. -/
def WarnState.clean : WarnState := { suppressed := [], saved := [], cmdline := [] }

/-- Effect of one pragma. `disable` and `ignored` add a warning to the
suppressed ones, `push` saves the current state, `pop` restores the state
saved by the matching `push` (the command-line state when there is none). -/
def applyPragma (s : WarnState) : Pragma → WarnState
  | .warningDisable n => { s with suppressed := s.suppressed.insert (.msvc n) }
  | .gccDiagnosticPush => { s with saved := s.suppressed :: s.saved }
  | .gccDiagnosticIgnored w => { s with suppressed := s.suppressed.insert (.gcc w) }
  | .gccDiagnosticPop =>
      match s.saved with
      | [] => { s with suppressed := s.cmdline }
      | top :: rest => { s with suppressed := top, saved := rest }

/-- Effect of one emitted directive on the warning state. -/
def applyDirective (s : WarnState) : Directive → WarnState
  | .pragma p => applyPragma s p
  | _ => s

/-- Warning state after a sequence of emitted directives. -/
def warnRun (s : WarnState) (ds : List Directive) : WarnState :=
  ds.foldl applyDirective s

/-- Warnings that the emitted directives disable or ignore. -/
def suppressedBy : List Directive → List Warning
  | [] => []
  | .pragma (.warningDisable n) :: ds => .msvc n :: suppressedBy ds
  | .pragma (.gccDiagnosticIgnored w) :: ds => .gcc w :: suppressedBy ds
  | _ :: ds => suppressedBy ds

/-- Warning state in effect when the preprocessor reaches the include of
header `h` in `fontstash.c`. -/
def warnAtInclude (s : WarnState) (h : String) (predefined : List String) : WarnState :=
  warnRun s (reaching (.incl h) predefined).out

/-- Warning state in effect after lines `1 .. n` of `fontstash.c`. -/
def warnAfterLine (s : WarnState) (n : Nat) (predefined : List String) : WarnState :=
  warnRun s (emittedUpTo n predefined)

/-! ## Programs of several translation units -/

/-- The unit compiled from `fontstash.c` defines macro `x` itself. -/
def unitDefines (x : String) (predefined : List String) : Bool :=
  (emitted predefined).contains (.define x)

/-- Number of units, each given by its predefined macros, that satisfy `p`. -/
def unitCount (p : List String → Bool) (units : List (List String)) : Nat :=
  units.countP p

/-- Modelled from the spec: the headers `fontstash.h` and `sokol_fontstash.h`
are not expanded here; by the glossary an implementation-activation macro,
"when defined, causes a header-only library to emit full function bodies
rather than mere declarations". The unit emits the bodies of header `h`,
activated by macro `x`, when the include of `h` is live and `x` is defined
as the preprocessor reaches it. -/
def emitsBodies (h x : String) (predefined : List String) : Bool :=
  (reaching (.incl h) predefined).active && (reaching (.incl h) predefined).macros.contains x

theorem eval_agree (T m n : List String) (h : ∀ x ∈ T, (x ∈ m ↔ x ∈ n)) (c : Cond)
    (hc : ∀ x ∈ c.names, x ∈ T) : c.eval m = c.eval n := by
  induction c with
  | defined x =>
      have hx := h x (hc x (by simp [Cond.names]))
      simp [Cond.eval, hx]
  | or a b iha ihb =>
      have ha := iha (fun x hx => hc x (by simp [Cond.names, hx]))
      have hb := ihb (fun x hx => hc x (by simp [Cond.names, hx]))
      simp [Cond.eval, ha, hb]

theorem step_agree (T : List String) (s t : PP) (h : Agree T s t) (l : Line)
    (hl : ∀ x ∈ l.tested, x ∈ T) : Agree T (step s l) (step t l) := by
  obtain ⟨h1, h2, h3⟩ := h
  have hact : s.active = t.active := by simp [PP.active, h1]
  cases l with
  | ifCond c =>
      refine ⟨?_, h2, h3⟩
      simp [step, h1, eval_agree T s.macros t.macros h3 c hl]
  | endif => exact ⟨by simp [step, h1], h2, h3⟩
  | define m =>
      cases ha : t.active
      · simpa [step, hact, ha] using ⟨h1, h2, h3⟩
      · refine ⟨by simp [step, hact, ha, h1], by simp [step, hact, ha, h2], ?_⟩
        intro x hx
        simp [step, hact, ha, h3 x hx]
  | incl f =>
      cases ha : t.active
      · simpa [step, hact, ha] using ⟨h1, h2, h3⟩
      · exact ⟨by simp [step, hact, ha, h1], by simp [step, hact, ha, h2],
          by simpa [step, hact, ha] using h3⟩
  | pragma p =>
      cases ha : t.active
      · simpa [step, hact, ha] using ⟨h1, h2, h3⟩
      · exact ⟨by simp [step, hact, ha, h1], by simp [step, hact, ha, h2],
          by simpa [step, hact, ha] using h3⟩
  | blank => exact ⟨h1, h2, h3⟩

theorem foldl_agree (T : List String) (lines : List Line)
    (hl : ∀ l ∈ lines, ∀ x ∈ l.tested, x ∈ T) (s t : PP) (h : Agree T s t) :
    Agree T (lines.foldl step s) (lines.foldl step t) := by
  induction lines generalizing s t with
  | nil => exact h
  | cons l ls ih =>
      simp only [List.foldl_cons]
      exact ih (fun k hk => hl k (List.mem_cons_of_mem _ hk)) _ _
        (step_agree T s t h l (hl l (List.mem_cons_self _ _)))

theorem fontstash_c_tested : ∀ l ∈ fontstash_c, ∀ x ∈ l.tested, x ∈ testedMacros := by
  decide

theorem config_agree (m : List String) :
    ∀ x ∈ testedMacros, (x ∈ m ↔
      x ∈ config (m.contains "IMPL") (m.contains "_MSC_VER") (m.contains "__GNUC__")
        (m.contains "__clang__")) := by
  intro x hx
  simp only [testedMacros, List.mem_cons, List.mem_singleton, List.not_mem_nil, or_false] at hx
  by_cases h1 : "IMPL" ∈ m <;> by_cases h2 : "_MSC_VER" ∈ m <;>
  by_cases h3 : "__GNUC__" ∈ m <;> by_cases h4 : "__clang__" ∈ m <;>
  rcases hx with rfl | rfl | rfl | rfl <;> simp [config, h1, h2, h3, h4]

/-- On any part of `fontstash.c`, the emitted directives and the conditional
stack are those of the configuration given by the four tested macros. -/
theorem run_config (lines : List Line) (hl : ∀ l ∈ lines, l ∈ fontstash_c) (m : List String) :
    (run lines m).out = (run lines (config (m.contains "IMPL") (m.contains "_MSC_VER")
      (m.contains "__GNUC__") (m.contains "__clang__"))).out ∧
    (run lines m).conds = (run lines (config (m.contains "IMPL") (m.contains "_MSC_VER")
      (m.contains "__GNUC__") (m.contains "__clang__"))).conds := by
  have h := foldl_agree testedMacros lines
    (fun l hin => fontstash_c_tested l (hl l hin))
    { macros := m, conds := [], out := [] }
    { macros := config (m.contains "IMPL") (m.contains "_MSC_VER") (m.contains "__GNUC__")
        (m.contains "__clang__"), conds := [], out := [] }
    ⟨rfl, rfl, config_agree m⟩
  exact ⟨h.2.1, h.1⟩

theorem emitted_config (m : List String) :
    emitted m = emitted (config (m.contains "IMPL") (m.contains "_MSC_VER")
      (m.contains "__GNUC__") (m.contains "__clang__")) :=
  (run_config fontstash_c (fun _ h => h) m).1

theorem emittedUpTo_config (n : Nat) (m : List String) :
    emittedUpTo n m = emittedUpTo n (config (m.contains "IMPL") (m.contains "_MSC_VER")
      (m.contains "__GNUC__") (m.contains "__clang__")) :=
  (run_config (fontstash_c.take n) (fun _ h => List.mem_of_mem_take h) m).1

theorem reaching_out_config (l : Line) (m : List String) :
    (reaching l m).out = (reaching l (config (m.contains "IMPL") (m.contains "_MSC_VER")
      (m.contains "__GNUC__") (m.contains "__clang__"))).out :=
  (run_config (fontstash_c.takeWhile (· ≠ l))
    (fun _ h => (List.takeWhile_sublist _).subset h) m).1

theorem reaching_active_config (l : Line) (m : List String) :
    (reaching l m).active = (reaching l (config (m.contains "IMPL") (m.contains "_MSC_VER")
      (m.contains "__GNUC__") (m.contains "__clang__"))).active := by
  have h := (run_config (fontstash_c.takeWhile (· ≠ l))
    (fun _ h => (List.takeWhile_sublist _).subset h) m).2
  simp only [reaching, PP.active, h]

/-! ## The macros in effect are the predefined ones and those the file defined -/

theorem definesOf_append (xs ys : List Directive) :
    definesOf (xs ++ ys) = definesOf xs ++ definesOf ys := by
  induction xs with
  | nil => rfl
  | cons d ds ih => cases d <;> simp [definesOf, ih]

theorem foldl_macros (m : List String) (lines : List Line) (s : PP)
    (h : s.macros = (definesOf s.out).reverse ++ m) :
    (lines.foldl step s).macros = (definesOf (lines.foldl step s).out).reverse ++ m := by
  induction lines generalizing s with
  | nil => exact h
  | cons l ls ih =>
      simp only [List.foldl_cons]
      apply ih
      cases l with
      | ifCond c => exact h
      | endif => exact h
      | define x =>
          cases ha : s.active
          · simpa [step, ha] using h
          · simp [step, ha, h, definesOf_append, definesOf]
      | incl f =>
          cases ha : s.active
          · simpa [step, ha] using h
          · simp [step, ha, h, definesOf_append, definesOf]
      | pragma p =>
          cases ha : s.active
          · simpa [step, ha] using h
          · simp [step, ha, h, definesOf_append, definesOf]
      | blank => exact h

theorem run_macros (lines : List Line) (m : List String) :
    (run lines m).macros = (definesOf (run lines m).out).reverse ++ m :=
  foldl_macros m lines _ rfl

theorem reaching_macros (l : Line) (m : List String) :
    (reaching l m).macros =
      (definesOf (reaching l (config (m.contains "IMPL") (m.contains "_MSC_VER")
        (m.contains "__GNUC__") (m.contains "__clang__"))).out).reverse ++ m := by
  rw [← reaching_out_config l m]
  exact run_macros _ m

/-! ## The implementation gate (lines 1-4) -/

/-- C1: in every build configuration in which `IMPL` is defined, the file
defines both `FONTSTASH_IMPLEMENTATION` and `SOKOL_FONTSTASH_IMPL`, each of
the two definitions stands before the include of `fontstash.h` and before
the include of `sokol_fontstash.h`, and when the preprocessor reaches either
include the line is live and both macros are defined. -/
theorem C1_impl_defines_before_headers (predefined : List String)
    (h : "IMPL" ∈ predefined) :
    Directive.define "FONTSTASH_IMPLEMENTATION" ∈ emitted predefined ∧
    Directive.define "SOKOL_FONTSTASH_IMPL" ∈ emitted predefined ∧
    Precedes (.define "FONTSTASH_IMPLEMENTATION") (.incl "fontstash.h") (emitted predefined) ∧
    Precedes (.define "FONTSTASH_IMPLEMENTATION") (.incl "sokol_fontstash.h")
      (emitted predefined) ∧
    Precedes (.define "SOKOL_FONTSTASH_IMPL") (.incl "fontstash.h") (emitted predefined) ∧
    Precedes (.define "SOKOL_FONTSTASH_IMPL") (.incl "sokol_fontstash.h")
      (emitted predefined) ∧
    (reaching (.incl "fontstash.h") predefined).active = true ∧
    "FONTSTASH_IMPLEMENTATION" ∈ (reaching (.incl "fontstash.h") predefined).macros ∧
    "SOKOL_FONTSTASH_IMPL" ∈ (reaching (.incl "fontstash.h") predefined).macros ∧
    (reaching (.incl "sokol_fontstash.h") predefined).active = true ∧
    "FONTSTASH_IMPLEMENTATION" ∈ (reaching (.incl "sokol_fontstash.h") predefined).macros ∧
    "SOKOL_FONTSTASH_IMPL" ∈ (reaching (.incl "sokol_fontstash.h") predefined).macros := by
  have hi : predefined.contains "IMPL" = true := by simpa using h
  have he := emitted_config predefined
  have ha1 := reaching_active_config (.incl "fontstash.h") predefined
  have ha2 := reaching_active_config (.incl "sokol_fontstash.h") predefined
  have hm1 := reaching_macros (.incl "fontstash.h") predefined
  have hm2 := reaching_macros (.incl "sokol_fontstash.h") predefined
  rw [hi] at he ha1 ha2 hm1 hm2
  have key : ∀ b c d : Bool,
      Directive.define "FONTSTASH_IMPLEMENTATION" ∈ emitted (config true b c d) ∧
      Directive.define "SOKOL_FONTSTASH_IMPL" ∈ emitted (config true b c d) ∧
      Precedes (.define "FONTSTASH_IMPLEMENTATION") (.incl "fontstash.h")
        (emitted (config true b c d)) ∧
      Precedes (.define "FONTSTASH_IMPLEMENTATION") (.incl "sokol_fontstash.h")
        (emitted (config true b c d)) ∧
      Precedes (.define "SOKOL_FONTSTASH_IMPL") (.incl "fontstash.h")
        (emitted (config true b c d)) ∧
      Precedes (.define "SOKOL_FONTSTASH_IMPL") (.incl "sokol_fontstash.h")
        (emitted (config true b c d)) ∧
      (reaching (.incl "fontstash.h") (config true b c d)).active = true ∧
      "FONTSTASH_IMPLEMENTATION" ∈
        definesOf (reaching (.incl "fontstash.h") (config true b c d)).out ∧
      "SOKOL_FONTSTASH_IMPL" ∈
        definesOf (reaching (.incl "fontstash.h") (config true b c d)).out ∧
      (reaching (.incl "sokol_fontstash.h") (config true b c d)).active = true ∧
      "FONTSTASH_IMPLEMENTATION" ∈
        definesOf (reaching (.incl "sokol_fontstash.h") (config true b c d)).out ∧
      "SOKOL_FONTSTASH_IMPL" ∈
        definesOf (reaching (.incl "sokol_fontstash.h") (config true b c d)).out := by
    decide
  obtain ⟨k1, k2, k3, k4, k5, k6, k7, k8, k9, k10, k11, k12⟩ :=
    key (predefined.contains "_MSC_VER") (predefined.contains "__GNUC__")
      (predefined.contains "__clang__")
  rw [he, ha1, ha2, hm1, hm2]
  simp only [List.mem_append, List.mem_reverse]
  exact ⟨k1, k2, k3, k4, k5, k6, k7, Or.inl k8, Or.inl k9, k10, Or.inl k11, Or.inl k12⟩

/-- Witness of C1 at the configuration that predefines `IMPL` and `__GNUC__`. -/
theorem C1_impl_defines_before_headers_witness :
    "IMPL" ∈ ["IMPL", "__GNUC__"] ∧
    Directive.define "FONTSTASH_IMPLEMENTATION" ∈ emitted ["IMPL", "__GNUC__"] ∧
    Precedes (.define "SOKOL_FONTSTASH_IMPL") (.incl "sokol_fontstash.h")
      (emitted ["IMPL", "__GNUC__"]) ∧
    "FONTSTASH_IMPLEMENTATION" ∈ (reaching (.incl "fontstash.h") ["IMPL", "__GNUC__"]).macros :=
  have w := C1_impl_defines_before_headers ["IMPL", "__GNUC__"] (by decide)
  ⟨by decide, w.1, w.2.2.2.2.2.1, w.2.2.2.2.2.2.2.1⟩

/-- C2: in every build configuration in which `IMPL` is not defined, the
file emits no `#define` at all (so neither `FONTSTASH_IMPLEMENTATION` nor
`SOKOL_FONTSTASH_IMPL`), and the macros in effect when `fontstash.h` and
`sokol_fontstash.h` are reached are exactly the predefined ones. -/
theorem C2_no_impl_no_define (predefined : List String) (h : "IMPL" ∉ predefined) :
    definesOf (emitted predefined) = [] ∧
    (∀ x, Directive.define x ∉ emitted predefined) ∧
    (reaching (.incl "fontstash.h") predefined).macros = predefined ∧
    (reaching (.incl "sokol_fontstash.h") predefined).macros = predefined := by
  have hi : predefined.contains "IMPL" = false := by simpa using h
  have he := emitted_config predefined
  have hm1 := reaching_macros (.incl "fontstash.h") predefined
  have hm2 := reaching_macros (.incl "sokol_fontstash.h") predefined
  rw [hi] at he hm1 hm2
  have key : ∀ b c d : Bool,
      definesOf (emitted (config false b c d)) = [] ∧
      (∀ e ∈ emitted (config false b c d), ∀ x ∈ definesOf [e], False) ∧
      definesOf (reaching (.incl "fontstash.h") (config false b c d)).out = [] ∧
      definesOf (reaching (.incl "sokol_fontstash.h") (config false b c d)).out = [] := by
    decide
  obtain ⟨k1, k2, k3, k4⟩ :=
    key (predefined.contains "_MSC_VER") (predefined.contains "__GNUC__")
      (predefined.contains "__clang__")
  rw [he, hm1, hm2, k3, k4]
  refine ⟨k1, ?_, rfl, rfl⟩
  intro x hx
  exact k2 _ hx x (by simp [definesOf])

/-- Witness of C2 at the configuration that predefines `_MSC_VER` and
`__clang__` only. -/
theorem C2_no_impl_no_define_witness :
    "IMPL" ∉ ["_MSC_VER", "__clang__"] ∧
    definesOf (emitted ["_MSC_VER", "__clang__"]) = [] ∧
    (reaching (.incl "fontstash.h") ["_MSC_VER", "__clang__"]).macros
      = ["_MSC_VER", "__clang__"] :=
  have w := C2_no_impl_no_define ["_MSC_VER", "__clang__"] (by decide)
  ⟨by decide, w.1, w.2.2.1⟩

/-- C9: in every build configuration every macro the file defines is
`FONTSTASH_IMPLEMENTATION` or `SOKOL_FONTSTASH_IMPL`, the two are defined
together or not at all, and `SOKOL_IMPL`, `SOKOL_GFX_IMPL` and
`SOKOL_GL_IMPL` are never defined by the file: when `sokol_gfx.h` or
`sokol_gl.h` is reached, each of these three is defined only if it was
predefined. -/
theorem C9_defines_only_fontstash_macros (predefined : List String) :
    (∀ x ∈ definesOf (emitted predefined),
      x = "FONTSTASH_IMPLEMENTATION" ∨ x = "SOKOL_FONTSTASH_IMPL") ∧
    ("FONTSTASH_IMPLEMENTATION" ∈ definesOf (emitted predefined) ↔
      "SOKOL_FONTSTASH_IMPL" ∈ definesOf (emitted predefined)) ∧
    "SOKOL_IMPL" ∉ definesOf (emitted predefined) ∧
    "SOKOL_GFX_IMPL" ∉ definesOf (emitted predefined) ∧
    "SOKOL_GL_IMPL" ∉ definesOf (emitted predefined) ∧
    (∀ x ∈ ["SOKOL_IMPL", "SOKOL_GFX_IMPL", "SOKOL_GL_IMPL"],
      (x ∈ (reaching (.incl "sokol_gfx.h") predefined).macros ↔ x ∈ predefined) ∧
      (x ∈ (reaching (.incl "sokol_gl.h") predefined).macros ↔ x ∈ predefined)) := by
  have he := emitted_config predefined
  have hm1 := reaching_macros (.incl "sokol_gfx.h") predefined
  have hm2 := reaching_macros (.incl "sokol_gl.h") predefined
  have key : ∀ a b c d : Bool,
      (∀ x ∈ definesOf (emitted (config a b c d)),
        x = "FONTSTASH_IMPLEMENTATION" ∨ x = "SOKOL_FONTSTASH_IMPL") ∧
      ("FONTSTASH_IMPLEMENTATION" ∈ definesOf (emitted (config a b c d)) ↔
        "SOKOL_FONTSTASH_IMPL" ∈ definesOf (emitted (config a b c d))) ∧
      "SOKOL_IMPL" ∉ definesOf (emitted (config a b c d)) ∧
      "SOKOL_GFX_IMPL" ∉ definesOf (emitted (config a b c d)) ∧
      "SOKOL_GL_IMPL" ∉ definesOf (emitted (config a b c d)) ∧
      (∀ x ∈ ["SOKOL_IMPL", "SOKOL_GFX_IMPL", "SOKOL_GL_IMPL"],
        x ∉ definesOf (reaching (.incl "sokol_gfx.h") (config a b c d)).out ∧
        x ∉ definesOf (reaching (.incl "sokol_gl.h") (config a b c d)).out) := by
    decide
  obtain ⟨k1, k2, k3, k4, k5, k6⟩ :=
    key (predefined.contains "IMPL") (predefined.contains "_MSC_VER")
      (predefined.contains "__GNUC__") (predefined.contains "__clang__")
  rw [he, hm1, hm2]
  simp only [List.mem_append, List.mem_reverse]
  refine ⟨k1, k2, k3, k4, k5, ?_⟩
  intro x hx
  have hk := k6 x hx
  exact ⟨⟨fun hm => hm.resolve_left hk.1, Or.inr⟩, ⟨fun hm => hm.resolve_left hk.2, Or.inr⟩⟩

/-! ## The include sequence (lines 5-25) -/

/-- C3: in every build configuration the includes of `sokol_gfx.h` and of
`sokol_gl.h` both stand before the include of `fontstash.h` and before the
include of `sokol_fontstash.h` among the emitted directives. Each of the two
font headers is included exactly once, on a live line, and when the
preprocessor reaches that include both `sokol_gfx.h` and `sokol_gl.h` have
already been included and the font header itself has not. -/
theorem C3_graphics_headers_before_font_headers (predefined : List String) :
    Precedes (.incl "sokol_gfx.h") (.incl "fontstash.h") (emitted predefined) ∧
    Precedes (.incl "sokol_gfx.h") (.incl "sokol_fontstash.h") (emitted predefined) ∧
    Precedes (.incl "sokol_gl.h") (.incl "fontstash.h") (emitted predefined) ∧
    Precedes (.incl "sokol_gl.h") (.incl "sokol_fontstash.h") (emitted predefined) ∧
    (emitted predefined).count (.incl "fontstash.h") = 1 ∧
    (emitted predefined).count (.incl "sokol_fontstash.h") = 1 ∧
    (reaching (.incl "fontstash.h") predefined).active = true ∧
    Directive.incl "sokol_gfx.h" ∈ (reaching (.incl "fontstash.h") predefined).out ∧
    Directive.incl "sokol_gl.h" ∈ (reaching (.incl "fontstash.h") predefined).out ∧
    Directive.incl "fontstash.h" ∉ (reaching (.incl "fontstash.h") predefined).out ∧
    (reaching (.incl "sokol_fontstash.h") predefined).active = true ∧
    Directive.incl "sokol_gfx.h" ∈ (reaching (.incl "sokol_fontstash.h") predefined).out ∧
    Directive.incl "sokol_gl.h" ∈ (reaching (.incl "sokol_fontstash.h") predefined).out ∧
    Directive.incl "sokol_fontstash.h" ∉
      (reaching (.incl "sokol_fontstash.h") predefined).out := by
  have he := emitted_config predefined
  have ha1 := reaching_active_config (.incl "fontstash.h") predefined
  have ha2 := reaching_active_config (.incl "sokol_fontstash.h") predefined
  have ho1 := reaching_out_config (.incl "fontstash.h") predefined
  have ho2 := reaching_out_config (.incl "sokol_fontstash.h") predefined
  have key : ∀ a b c d : Bool,
      Precedes (.incl "sokol_gfx.h") (.incl "fontstash.h") (emitted (config a b c d)) ∧
      Precedes (.incl "sokol_gfx.h") (.incl "sokol_fontstash.h") (emitted (config a b c d)) ∧
      Precedes (.incl "sokol_gl.h") (.incl "fontstash.h") (emitted (config a b c d)) ∧
      Precedes (.incl "sokol_gl.h") (.incl "sokol_fontstash.h") (emitted (config a b c d)) ∧
      (emitted (config a b c d)).count (.incl "fontstash.h") = 1 ∧
      (emitted (config a b c d)).count (.incl "sokol_fontstash.h") = 1 := by
    decide
  have key2 : ∀ a b c d : Bool,
      (reaching (.incl "fontstash.h") (config a b c d)).active = true ∧
      Directive.incl "sokol_gfx.h" ∈ (reaching (.incl "fontstash.h") (config a b c d)).out ∧
      Directive.incl "sokol_gl.h" ∈ (reaching (.incl "fontstash.h") (config a b c d)).out ∧
      Directive.incl "fontstash.h" ∉ (reaching (.incl "fontstash.h") (config a b c d)).out ∧
      (reaching (.incl "sokol_fontstash.h") (config a b c d)).active = true ∧
      Directive.incl "sokol_gfx.h" ∈
        (reaching (.incl "sokol_fontstash.h") (config a b c d)).out ∧
      Directive.incl "sokol_gl.h" ∈
        (reaching (.incl "sokol_fontstash.h") (config a b c d)).out ∧
      Directive.incl "sokol_fontstash.h" ∉
        (reaching (.incl "sokol_fontstash.h") (config a b c d)).out := by
    decide
  obtain ⟨k1, k2, k3, k4, k5, k6⟩ :=
    key (predefined.contains "IMPL") (predefined.contains "_MSC_VER")
      (predefined.contains "__GNUC__") (predefined.contains "__clang__")
  obtain ⟨r1, r2, r3, r4, r5, r6, r7, r8⟩ :=
    key2 (predefined.contains "IMPL") (predefined.contains "_MSC_VER")
      (predefined.contains "__GNUC__") (predefined.contains "__clang__")
  rw [he, ha1, ha2, ho1, ho2]
  exact ⟨k1, k2, k3, k4, k5, k6, r1, r2, r3, r4, r5, r6, r7, r8⟩

/-- C5: in every build configuration the headers included are exactly
`sokol_defines.h`, `sokol_gfx.h`, `sokol_gl.h`, `stdio.h`, `stdlib.h`,
`fontstash.h`, `sokol_fontstash.h`, in that order, and no include of the
file stands inside a conditional block. -/
theorem C5_include_sequence_fixed (predefined : List String) :
    includesOf (emitted predefined) =
      ["sokol_defines.h", "sokol_gfx.h", "sokol_gl.h", "stdio.h", "stdlib.h",
        "fontstash.h", "sokol_fontstash.h"] ∧
    guardedIncludes 0 fontstash_c = [] := by
  rw [emitted_config predefined]
  generalize predefined.contains "IMPL" = a
  generalize predefined.contains "_MSC_VER" = b
  generalize predefined.contains "__GNUC__" = c
  generalize predefined.contains "__clang__" = d
  revert a b c d
  decide

/-! ## One implementation per program -/

/-- The gate is not the only way to activate the implementation: a unit that
predefines `FONTSTASH_IMPLEMENTATION` itself emits the bodies without `IMPL`. -/
theorem gate_bypassed_by_predefined_macro :
    unitCount (emitsBodies "fontstash.h" "FONTSTASH_IMPLEMENTATION")
      [["IMPL"], ["FONTSTASH_IMPLEMENTATION"]] = 2 ∧
    unitCount (unitDefines "FONTSTASH_IMPLEMENTATION")
      [["IMPL"], ["FONTSTASH_IMPLEMENTATION"]] = 1 ∧
    unitCount (fun u => u.contains "IMPL") [["IMPL"], ["FONTSTASH_IMPLEMENTATION"]] = 1 := by
  decide

theorem emittedUpTo_10_closed : ∀ a b c d : Bool,
    emittedUpTo 10 (config a b c d) =
      (if a then [.define "FONTSTASH_IMPLEMENTATION", .define "SOKOL_FONTSTASH_IMPL"] else []) ++
      [.incl "sokol_defines.h", .incl "sokol_gfx.h", .incl "sokol_gl.h", .incl "stdio.h",
        .incl "stdlib.h"] := by
  decide

theorem emittedUpTo_23_closed : ∀ a b c d : Bool,
    emittedUpTo 23 (config a b c d) =
      emittedUpTo 10 (config a b c d) ++
      (if b then [.pragma (.warningDisable 4996)] else []) ++
      (if c || d then [.pragma .gccDiagnosticPush,
        .pragma (.gccDiagnosticIgnored "-Wunused-function"),
        .pragma (.gccDiagnosticIgnored "-Wsign-conversion")] else []) ++
      [.incl "fontstash.h"] ++
      (if c || d then [.pragma .gccDiagnosticPop] else []) := by
  decide

theorem reaching_closed : ∀ a b c d : Bool,
    (reaching (.pragma .gccDiagnosticPush) (config a b c d)).out =
      emittedUpTo 10 (config a b c d) ++
      (if b then [.pragma (.warningDisable 4996)] else []) ∧
    (reaching (.incl "fontstash.h") (config a b c d)).out =
      emittedUpTo 10 (config a b c d) ++
      (if b then [.pragma (.warningDisable 4996)] else []) ++
      (if c || d then [.pragma .gccDiagnosticPush,
        .pragma (.gccDiagnosticIgnored "-Wunused-function"),
        .pragma (.gccDiagnosticIgnored "-Wsign-conversion")] else []) ∧
    (reaching (.incl "sokol_fontstash.h") (config a b c d)).out =
      emittedUpTo 23 (config a b c d) ∧
    emitted (config a b c d) =
      emittedUpTo 23 (config a b c d) ++ [.incl "sokol_fontstash.h"] := by
  decide

theorem warnRun_append (s : WarnState) (xs ys : List Directive) :
    warnRun s (xs ++ ys) = warnRun (warnRun s xs) ys := by
  simp [warnRun, List.foldl_append]

/-- No warning pragma stands above line 11: the warning state before the
suppression directives is the state the compilation started with. -/
theorem warn_before_line_11 (s : WarnState) (predefined : List String) :
    warnAfterLine s 10 predefined = s := by
  unfold warnAfterLine
  rw [emittedUpTo_config 10 predefined, emittedUpTo_10_closed]
  cases predefined.contains "IMPL" <;> simp [warnRun, applyDirective]

/-- Without `_MSC_VER` the only suppressions are the two GCC diagnostics, and
the `pop` on line 22 restores the state saved by the `push` on line 15. -/
theorem gcc_scope_restored (s : WarnState) (predefined : List String)
    (h : "_MSC_VER" ∉ predefined) :
    warnAfterLine s 23 predefined = warnAfterLine s 10 predefined := by
  have hb : predefined.contains "_MSC_VER" = false := by simpa using h
  rw [warn_before_line_11]
  have h10 := warn_before_line_11 s
    (config (predefined.contains "IMPL") false (predefined.contains "__GNUC__")
      (predefined.contains "__clang__"))
  unfold warnAfterLine at h10 ⊢
  rw [emittedUpTo_config 23 predefined, emittedUpTo_23_closed, hb]
  simp only [warnRun_append, h10]
  cases predefined.contains "__GNUC__" <;> cases predefined.contains "__clang__" <;>
    simp [warnRun, applyDirective, applyPragma]

/-- With `_MSC_VER` warning 4996 is still disabled after line 23, whatever
the other macros and the starting state. -/
theorem msvc_disable_persists (s : WarnState) (predefined : List String)
    (h : "_MSC_VER" ∈ predefined) :
    Warning.msvc 4996 ∈ (warnAfterLine s 23 predefined).suppressed := by
  have hb : predefined.contains "_MSC_VER" = true := by simpa using h
  have h10 := warn_before_line_11 s
    (config (predefined.contains "IMPL") true (predefined.contains "__GNUC__")
      (predefined.contains "__clang__"))
  unfold warnAfterLine at h10 ⊢
  rw [emittedUpTo_config 23 predefined, emittedUpTo_23_closed, hb]
  simp only [warnRun_append, h10]
  cases predefined.contains "__GNUC__" <;> cases predefined.contains "__clang__" <;>
    simp [warnRun, applyDirective, applyPragma]

/-- C4: evaluation at the configuration that predefines `_MSC_VER` only,
started with no warning suppressed. Before line 11 nothing is suppressed;
after line 23 warning 4996, disabled on line 12, is still disabled and no
state was saved to restore it from, so the two states differ; the
suppression is still in effect when `sokol_fontstash.h` is reached. -/
theorem C4_msvc_disable_not_restored :
    warnAfterLine .clean 10 ["_MSC_VER"] = .clean ∧
    warnAfterLine .clean 23 ["_MSC_VER"]
      = { suppressed := [.msvc 4996], saved := [], cmdline := [] } ∧
    warnAfterLine .clean 23 ["_MSC_VER"] ≠ warnAfterLine .clean 10 ["_MSC_VER"] ∧
    Warning.msvc 4996 ∈ (warnAtInclude .clean "sokol_fontstash.h" ["_MSC_VER"]).suppressed := by
  decide

theorem suppressedBy_closed : ∀ a b c d : Bool,
    suppressedBy (emitted (config a b c d)) =
      (if b then [.msvc 4996] else []) ++
      (if c || d then [.gcc "-Wunused-function", .gcc "-Wsign-conversion"] else []) ∧
    ∃ front, includesOf (emitted (config a b c d)) = front ++ ["fontstash.h", "sokol_fontstash.h"] := by
  intro a b c d
  refine ⟨?_, ["sokol_defines.h", "sokol_gfx.h", "sokol_gl.h", "stdio.h", "stdlib.h"], ?_⟩
  · revert a b c d
    decide
  · revert a b c d
    decide

/-- C7 as stated fails at the configuration that predefines `__GNUC__`
only, started with no warning suppressed: the file ignores
`-Wunused-function`, but when `sokol_fontstash.h` is reached the `pop` of
line 22 has already restored the clean state, so the suppression set up by
the file is not in effect there. -/
theorem C7_counterexample :
    ("_MSC_VER" ∈ ["__GNUC__"] ∨ "__GNUC__" ∈ ["__GNUC__"] ∨ "__clang__" ∈ ["__GNUC__"]) ∧
    Warning.gcc "-Wunused-function" ∈ suppressedBy (emitted ["__GNUC__"]) ∧
    warnAtInclude .clean "sokol_fontstash.h" ["__GNUC__"] = .clean ∧
    ¬ (∀ w ∈ suppressedBy (emitted ["__GNUC__"]),
        w ∈ (warnAtInclude .clean "sokol_fontstash.h" ["__GNUC__"]).suppressed) := by
  decide

/-- C7, amended: in every build configuration in which the file suppresses
warnings (`_MSC_VER`, `__GNUC__` or `__clang__` defined), `fontstash.h` and
`sokol_fontstash.h` are the last two headers included and every warning the
file disables or ignores is suppressed when `fontstash.h` is reached; the
GCC suppression does not extend to `sokol_fontstash.h`: with `__GNUC__` or
`__clang__` defined, the warning state when `sokol_fontstash.h` is reached
is the state in which the `push` of line 15 was reached. -/
theorem C7_suppression_around_fontstash_h (s : WarnState) (predefined : List String)
    (h : "_MSC_VER" ∈ predefined ∨ "__GNUC__" ∈ predefined ∨ "__clang__" ∈ predefined) :
    suppressedBy (emitted predefined) ≠ [] ∧
    (∃ front, includesOf (emitted predefined) = front ++ ["fontstash.h", "sokol_fontstash.h"]) ∧
    (∀ w ∈ suppressedBy (emitted predefined),
      w ∈ (warnAtInclude s "fontstash.h" predefined).suppressed) ∧
    (("__GNUC__" ∈ predefined ∨ "__clang__" ∈ predefined) →
      warnAtInclude s "sokol_fontstash.h" predefined
        = warnRun s (reaching (.pragma .gccDiagnosticPush) predefined).out) := by
  have hb : ("_MSC_VER" ∈ predefined) ↔ predefined.contains "_MSC_VER" = true := by simp
  have hc : ("__GNUC__" ∈ predefined) ↔ predefined.contains "__GNUC__" = true := by simp
  have hd : ("__clang__" ∈ predefined) ↔ predefined.contains "__clang__" = true := by simp
  rw [hb, hc, hd] at h
  rw [hc, hd]
  have h10 := warn_before_line_11 s
    (config (predefined.contains "IMPL") (predefined.contains "_MSC_VER")
      (predefined.contains "__GNUC__") (predefined.contains "__clang__"))
  obtain ⟨r1, r2, r3, -⟩ := reaching_closed (predefined.contains "IMPL")
    (predefined.contains "_MSC_VER") (predefined.contains "__GNUC__")
    (predefined.contains "__clang__")
  obtain ⟨q1, q2⟩ := suppressedBy_closed (predefined.contains "IMPL")
    (predefined.contains "_MSC_VER") (predefined.contains "__GNUC__")
    (predefined.contains "__clang__")
  unfold warnAfterLine at h10
  unfold warnAtInclude
  rw [emitted_config predefined, reaching_out_config (.incl "fontstash.h") predefined,
    reaching_out_config (.incl "sokol_fontstash.h") predefined,
    reaching_out_config (.pragma .gccDiagnosticPush) predefined, r1, r2, r3,
    emittedUpTo_23_closed, q1]
  refine ⟨?_, q2, ?_, ?_⟩
  · revert h
    cases predefined.contains "_MSC_VER" <;> cases predefined.contains "__GNUC__" <;>
      cases predefined.contains "__clang__" <;> simp
  · simp only [warnRun_append, h10]
    cases predefined.contains "_MSC_VER" <;> cases predefined.contains "__GNUC__" <;>
      cases predefined.contains "__clang__" <;>
      simp [warnRun, applyDirective, applyPragma]
  · simp only [warnRun_append, h10]
    cases predefined.contains "_MSC_VER" <;> cases predefined.contains "__GNUC__" <;>
      cases predefined.contains "__clang__" <;>
      simp [warnRun, applyDirective, applyPragma]

/-- Witness of the amended C7 at the configuration that predefines
`__GNUC__` only, started with no warning suppressed. -/
theorem C7_suppression_around_fontstash_h_witness :
    ("_MSC_VER" ∈ ["__GNUC__"] ∨ "__GNUC__" ∈ ["__GNUC__"] ∨ "__clang__" ∈ ["__GNUC__"]) ∧
    suppressedBy (emitted ["__GNUC__"]) ≠ [] ∧
    (∀ w ∈ suppressedBy (emitted ["__GNUC__"]),
      w ∈ (warnAtInclude .clean "fontstash.h" ["__GNUC__"]).suppressed) :=
  have w := C7_suppression_around_fontstash_h .clean ["__GNUC__"] (by decide)
  ⟨by decide, w.1, w.2.2.1⟩

/-- C8: in every build configuration `#pragma GCC diagnostic push` is
emitted exactly when `__GNUC__` or `__clang__` is defined, and so is
`#pragma GCC diagnostic pop`. When one of the two macros is defined the
emitted directives are some directives without GCC pragma, then `push`,
`ignored "-Wunused-function"`, `ignored "-Wsign-conversion"`, the include of
`fontstash.h`, `pop`, then directives without GCC pragma. When neither is
defined no GCC diagnostic pragma is emitted. -/
theorem C8_gcc_push_pop_bracket (predefined : List String) :
    (Directive.pragma .gccDiagnosticPush ∈ emitted predefined ↔
      ("__GNUC__" ∈ predefined ∨ "__clang__" ∈ predefined)) ∧
    (Directive.pragma .gccDiagnosticPop ∈ emitted predefined ↔
      ("__GNUC__" ∈ predefined ∨ "__clang__" ∈ predefined)) ∧
    ((("__GNUC__" ∈ predefined ∨ "__clang__" ∈ predefined) ∧
        ∃ pre post, emitted predefined =
            pre ++ [.pragma .gccDiagnosticPush,
              .pragma (.gccDiagnosticIgnored "-Wunused-function"),
              .pragma (.gccDiagnosticIgnored "-Wsign-conversion"),
              .incl "fontstash.h",
              .pragma .gccDiagnosticPop] ++ post ∧
          (∀ d ∈ pre, isGccPragma d = false) ∧ (∀ d ∈ post, isGccPragma d = false)) ∨
      ("__GNUC__" ∉ predefined ∧ "__clang__" ∉ predefined ∧
        ∀ d ∈ emitted predefined, isGccPragma d = false)) := by
  have hc : ("__GNUC__" ∈ predefined) ↔ predefined.contains "__GNUC__" = true := by simp
  have hd : ("__clang__" ∈ predefined) ↔ predefined.contains "__clang__" = true := by simp
  have key : ∀ a b c d : Bool,
      (Directive.pragma .gccDiagnosticPush ∈ emitted (config a b c d) ↔
        (c = true ∨ d = true)) ∧
      (Directive.pragma .gccDiagnosticPop ∈ emitted (config a b c d) ↔
        (c = true ∨ d = true)) ∧
      (((c = true ∨ d = true) ∧
          emitted (config a b c d) =
            (emitted (config a b c d)).takeWhile (fun x => !isGccPragma x) ++
              [.pragma .gccDiagnosticPush,
                .pragma (.gccDiagnosticIgnored "-Wunused-function"),
                .pragma (.gccDiagnosticIgnored "-Wsign-conversion"),
                .incl "fontstash.h",
                .pragma .gccDiagnosticPop] ++ [.incl "sokol_fontstash.h"] ∧
          (∀ x ∈ (emitted (config a b c d)).takeWhile (fun x => !isGccPragma x),
            isGccPragma x = false) ∧
          (∀ x ∈ [Directive.incl "sokol_fontstash.h"], isGccPragma x = false)) ∨
        (¬ c = true ∧ ¬ d = true ∧ ∀ x ∈ emitted (config a b c d), isGccPragma x = false)) := by
    decide
  obtain ⟨k1, k2, k3⟩ := key (predefined.contains "IMPL") (predefined.contains "_MSC_VER")
    (predefined.contains "__GNUC__") (predefined.contains "__clang__")
  rw [hc, hd, emitted_config predefined]
  refine ⟨k1, k2, ?_⟩
  rcases k3 with ⟨g, e, p1, p2⟩ | ⟨g1, g2, p⟩
  · exact Or.inl ⟨g, _, _, e, p1, p2⟩
  · exact Or.inr ⟨g1, g2, p⟩

end Fontstash
